import Mathlib

/-!
Verification of the quiz game session engine (`app/services/game_service.py`
together with the data models in `app/models/card.py` and `app/models/game.py`).

Embedding conventions:

* Python `int` fields are embedded as `Int` (Python integers are unbounded and
  the pydantic models place no lower bound on `current_index`, `score` or
  `total_cards`, so negative values are representable, e.g. after cookie
  deserialization).
* Python strings are Lean `String`s; the operations the service uses
  (`str.strip`, `==`/`!=`, `list.sort`'s lexicographic comparison) are embedded
  as structurally recursive functions over the underlying `List Char`
  (code-point semantics, matching CPython's comparison of `str` values).
* Exceptions (`ValueError` with its distinct messages) are embedded as the
  `GameError` sum returned through `Except`.
* Randomness: `random.sample(population, k)` is embedded by passing the random
  draw explicitly as a list of indices into the population; `ValidDraw n k idxs`
  states that the draw is one `random.sample` could produce on a population of
  size `n` (k pairwise-distinct in-range indices).  Theorems quantify over all
  valid draws.
* The mutation of the session performed by `submit_answer` (and Python's
  guarantee that the checks raise before any field is assigned) is embedded by
  returning the post-call session next to the result: `submitAnswer` yields
  `(result, session')` where `session'` is the session exactly as the Python
  call leaves it, including on the error paths.
* The `float` percentage is embedded as `Rat` (exact arithmetic on the same
  formula the source computes).
-/

deriving instance DecidableEq for Except

namespace AIQuiz

/-- `app/models/card.py` `Card`: a quiz card. -/
structure Card where
  id : Int
  image_filename : String
  correct_answer : String
deriving Repr, DecidableEq

/-- `app/models/game.py` `GameSession`: the state of one game session. -/
structure GameSession where
  cards : List Int
  current_index : Int
  score : Int
  total_cards : Int
deriving Repr, DecidableEq

/-- `app/models/card.py` `CardWithChoices`: view of the current quiz step. -/
structure CardWithChoices where
  card_index : Int
  total_cards : Int
  image_url : String
  choices : List String
deriving Repr, DecidableEq

/-- The distinct failure modes of the service (`ValueError`s with distinct
messages in the source, plus Python's `IndexError` for a bad list index). -/
inductive GameError where
  | invalidArgument : String → GameError
  | gameComplete : GameError
  | cardNotFound : Int → GameError
  | gameNotComplete : GameError
  | indexError : GameError
deriving Repr, DecidableEq

/-- Remove leading and trailing whitespace characters from a character list. -/
def stripChars (l : List Char) : List Char :=
  ((l.dropWhile Char.isWhitespace).reverse.dropWhile Char.isWhitespace).reverse

/-- Python `str.strip()`: the string without leading/trailing whitespace. -/
def pyStrip (s : String) : String := ⟨stripChars s.data⟩

/-- Code-point lexicographic `≤` on character lists (CPython's `str` order). -/
def charListLe : List Char → List Char → Bool
  | [], _ => true
  | _ :: _, [] => false
  | a :: as, b :: bs => if a < b then true else if b < a then false else charListLe as bs

/-- Python's `<=` on strings, used by `list.sort` on the choices. -/
def strLe (a b : String) : Bool := charListLe a.data b.data

/-- `strLe` as a relation, for `List.insertionSort` / `List.Sorted`. -/
def strLeProp (a b : String) : Prop := strLe a b = true

instance : DecidableRel strLeProp := fun a b => inferInstanceAs (Decidable (strLe a b = true))

/-- Python list indexing `l[i]`: negative indices count from the end; a
still-out-of-range index raises `IndexError` (here: `none`). -/
def pyIdx (l : List α) (i : Int) : Option α :=
  if 0 ≤ i then l[i.toNat]?
  else if 0 ≤ i + l.length then l[(i + l.length).toNat]? else none

/-- The elements of `l` selected by `random.sample` when the random source
picks the positions `idxs` (in that order). -/
def pySample (l : List α) (idxs : List Nat) : List α :=
  idxs.filterMap (fun i => l[i]?)

/-- `idxs` is a draw `random.sample(population, k)` can produce on a
population of size `n`: `k` pairwise-distinct in-range positions. -/
def ValidDraw (n k : Nat) (idxs : List Nat) : Prop :=
  idxs.Nodup ∧ idxs.length = k ∧ ∀ i ∈ idxs, i < n

instance (n k : Nat) (idxs : List Nat) : Decidable (ValidDraw n k idxs) := by
  unfold ValidDraw; infer_instance

/-- `next((card for card in all_cards if card.id == current_card_id), None)`. -/
def findCard (all_cards : List Card) (cid : Int) : Option Card :=
  all_cards.find? (fun card => card.id == cid)

/-- `[ans for ans in all_answers if ans != current_card.correct_answer]`:
the distractor pool (kept with multiplicity, untrimmed string inequality). -/
def incorrectAnswers (all_cards : List Card) (current_card : Card) : List String :=
  (all_cards.map (·.correct_answer)).filter (fun ans => ans != current_card.correct_answer)

/-- `GameService.create_game_session` (game_service.py lines 18-43).
`draw` is the index draw the random source hands `random.sample`. -/
def createGameSession (num_cards : Int) (all_cards : List Card) (draw : List Nat) :
    Except GameError GameSession :=
  let max_cards : Int := ((all_cards.length / 2 : Nat) : Int)
  if num_cards < 5 then
    .error (.invalidArgument "Number of cards must be at least 5")
  else if num_cards > max_cards then
    .error (.invalidArgument "Number of cards must not exceed half of available cards")
  else
    let selected_cards := pySample all_cards draw
    let card_ids := selected_cards.map (·.id)
    .ok { cards := card_ids, current_index := 0, score := 0, total_cards := num_cards }

/-- `GameService.get_current_card_with_choices` (game_service.py lines 45-93).
`draw` is the index draw handed to `random.sample` over the distractor pool
(a valid draw has size `min 4 pool.length`, the source's `num_incorrect`). -/
def getCurrentCardWithChoices (session : GameSession) (all_cards : List Card)
    (draw : List Nat) : Except GameError CardWithChoices :=
  if session.current_index ≥ session.total_cards then
    .error .gameComplete
  else
    match pyIdx session.cards session.current_index with
    | none => .error .indexError
    | some current_card_id =>
      match findCard all_cards current_card_id with
      | none => .error (.cardNotFound current_card_id)
      | some current_card =>
        let selected_incorrect := pySample (incorrectAnswers all_cards current_card) draw
        let choices :=
          List.insertionSort strLeProp (current_card.correct_answer :: selected_incorrect)
        .ok { card_index := session.current_index, total_cards := session.total_cards,
              image_url := "/images/" ++ current_card.image_filename, choices := choices }

/-- `GameService.submit_answer` (game_service.py lines 95-134).  Returns the
result together with the session as the call leaves it (Python mutates the
session in place, and both checks raise before any mutation). -/
def submitAnswer (session : GameSession) (answer : String) (all_cards : List Card) :
    Except GameError (Bool × String) × GameSession :=
  if session.current_index ≥ session.total_cards then
    (.error .gameComplete, session)
  else
    match pyIdx session.cards session.current_index with
    | none => (.error .indexError, session)
    | some current_card_id =>
      match findCard all_cards current_card_id with
      | none => (.error (.cardNotFound current_card_id), session)
      | some current_card =>
        let is_correct := pyStrip answer == pyStrip current_card.correct_answer
        let session1 :=
          if is_correct then { session with score := session.score + 1 } else session
        let session2 := { session1 with current_index := session1.current_index + 1 }
        (.ok (is_correct, current_card.correct_answer), session2)

/-- `GameService.is_game_complete` (game_service.py lines 136-146). -/
def isGameComplete (session : GameSession) : Bool :=
  session.current_index ≥ session.total_cards

/-- `GameService.get_game_results` (game_service.py lines 148-170). -/
def getGameResults (session : GameSession) : Except GameError (Int × Int × Rat) :=
  if ¬ isGameComplete session then
    .error .gameNotComplete
  else
    .ok (session.score, session.total_cards,
      if session.total_cards > 0 then
        ((session.score : Rat) / (session.total_cards : Rat)) * 100
      else 0)

/-- Run a sequence of `submit_answer` calls, each with its own answer and
catalog, requiring every call to succeed. -/
def runSubmits : GameSession → List (String × List Card) → Option GameSession
  | s, [] => some s
  | s, (a, cat) :: rest =>
    match submitAnswer s a cat with
    | (.ok _, s1) => runSubmits s1 rest
    | (.error _, _) => none

/-- Sessions reachable through the engine: produced by `create_game_session`
and then stepped by successful `submit_answer` calls (the sole mutator). -/
inductive Reachable : GameSession → Prop where
  | create (num_cards : Int) (all_cards : List Card) (draw : List Nat) (s : GameSession) :
      createGameSession num_cards all_cards draw = .ok s → Reachable s
  | step (s : GameSession) (answer : String) (all_cards : List Card)
      (r : Bool × String) (s1 : GameSession) : Reachable s →
      submitAnswer s answer all_cards = (.ok r, s1) → Reachable s1

/-- A ten-card catalog with distinct ids and distinct answers, used to
instantiate the theorems at concrete inputs. -/
def catalog10 : List Card :=
  [⟨1, "img1.png", "Alpha"⟩, ⟨2, "img2.png", "Bravo"⟩, ⟨3, "img3.png", "Charlie"⟩,
   ⟨4, "img4.png", "Delta"⟩, ⟨5, "img5.png", "Echo"⟩, ⟨6, "img6.png", "Foxtrot"⟩,
   ⟨7, "img7.png", "Golf"⟩, ⟨8, "img8.png", "Hotel"⟩, ⟨9, "img9.png", "India"⟩,
   ⟨10, "img10.png", "Juliett"⟩]

/-- A catalog in which two distinct cards share the answer string `"Beta"`. -/
def dupCatalog : List Card :=
  [⟨1, "a.png", "Alpha"⟩, ⟨2, "b.png", "Beta"⟩, ⟨3, "c.png", "Beta"⟩]

/-- A catalog in which a second card's answer differs from the first card's
answer only by leading whitespace. -/
def wsCatalog : List Card :=
  [⟨1, "p.png", "Paris"⟩, ⟨2, "q.png", " Paris"⟩]

/-! ### Helper lemmas -/

theorem pySample_length (l : List α) (idxs : List Nat) (h : ∀ i ∈ idxs, i < l.length) :
    (pySample l idxs).length = idxs.length := by
  induction idxs with
  | nil => rfl
  | cons i is ih =>
    have hi : i < l.length := h i (List.mem_cons_self i is)
    simp only [pySample, List.filterMap_cons, List.getElem?_eq_getElem hi, List.length_cons]
    have := ih (fun j hj => h j (List.mem_cons_of_mem i hj))
    simpa [pySample] using this

theorem pySample_subset (l : List α) (idxs : List Nat) (a : α) (h : a ∈ pySample l idxs) :
    a ∈ l := by
  rcases List.mem_filterMap.mp h with ⟨i, _, hget⟩
  rcases List.getElem?_eq_some.mp hget with ⟨hlt, hval⟩
  exact hval ▸ List.getElem_mem hlt

theorem pySample_nodup (l : List α) (idxs : List Nat) (hl : l.Nodup) (hn : idxs.Nodup)
    (hin : ∀ i ∈ idxs, i < l.length) : (pySample l idxs).Nodup := by
  induction idxs with
  | nil => exact List.nodup_nil
  | cons i is ih =>
    have hi : i < l.length := hin i (List.mem_cons_self i is)
    have hn' := List.nodup_cons.mp hn
    have tail_nodup := ih hn'.2 (fun j hj => hin j (List.mem_cons_of_mem i hj))
    simp only [pySample, List.filterMap_cons, List.getElem?_eq_getElem hi]
    refine List.nodup_cons.mpr ⟨?_, tail_nodup⟩
    intro hmem
    rcases List.mem_filterMap.mp hmem with ⟨j, hj, hget⟩
    have hji : l[j]? = l[i]? := by
      rw [List.getElem?_eq_getElem hi, hget]
    rcases List.getElem?_eq_some.mp hget with ⟨hjlt, _⟩
    have : j = i := List.getElem?_inj hjlt hl hji
    exact hn'.1 (this ▸ hj)

theorem pySample_map (f : α → β) (l : List α) (idxs : List Nat) :
    (pySample l idxs).map f = pySample (l.map f) idxs := by
  simp only [pySample, List.map_filterMap]
  refine List.filterMap_congr (fun i _ => ?_)
  rw [List.getElem?_map]

theorem charListLe_total : ∀ a b : List Char, charListLe a b = true ∨ charListLe b a = true
  | [], _ => Or.inl rfl
  | _ :: _, [] => Or.inr rfl
  | a :: as, b :: bs => by
    rcases lt_trichotomy a b with hab | hab | hab
    · left; simp [charListLe, hab]
    · subst hab
      rcases charListLe_total as bs with h | h
      · left; simpa [charListLe, lt_irrefl] using h
      · right; simpa [charListLe, lt_irrefl] using h
    · right; simp [charListLe, hab]

theorem charListLe_trans :
    ∀ a b c : List Char, charListLe a b = true → charListLe b c = true → charListLe a c = true
  | [], _, _ => fun _ _ => rfl
  | _ :: _, [], _ => fun hab _ => by simp [charListLe] at hab
  | _ :: _, _ :: _, [] => fun _ hbc => by simp [charListLe] at hbc
  | a :: as, b :: bs, c :: cs => fun hab hbc => by
    simp only [charListLe] at hab hbc ⊢
    by_cases h1 : a < b
    · by_cases h2 : b < c
      · simp [lt_trans h1 h2]
      · by_cases h3 : c < b
        · simp [h2, h3] at hbc
        · have hbceq : b = c := le_antisymm (not_lt.mp h3) (not_lt.mp h2)
          subst hbceq
          simp [h1]
    · by_cases h1' : b < a
      · simp [h1, h1'] at hab
      · have habeq : a = b := le_antisymm (not_lt.mp h1') (not_lt.mp h1)
        subst habeq
        by_cases h2 : a < c
        · simp [h2]
        · by_cases h3 : c < a
          · simp [h2, h3] at hbc
          · simp only [h1, if_false, h2, h3] at hab hbc ⊢
            exact charListLe_trans as bs cs hab hbc

instance : IsTotal String strLeProp :=
  ⟨fun a b => charListLe_total a.data b.data⟩

instance : IsTrans String strLeProp :=
  ⟨fun a b c => charListLe_trans a.data b.data c.data⟩

/-- Anatomy of a successful `submit_answer` call: the session was in progress,
the current card resolved, and the only field changes are the index advancing
by one and the score advancing by zero or one. -/
theorem submitAnswer_ok (s : GameSession) (a : String) (cat : List Card)
    (r : Bool × String) (s1 : GameSession) (h : submitAnswer s a cat = (.ok r, s1)) :
    s.current_index < s.total_cards ∧ s1.cards = s.cards ∧
    s1.total_cards = s.total_cards ∧ s1.current_index = s.current_index + 1 ∧
    (s1.score = s.score ∨ s1.score = s.score + 1) := by
  unfold submitAnswer at h
  split at h
  · simp at h
  · next hlt =>
    refine ⟨lt_of_not_ge hlt, ?_⟩
    split at h
    · simp at h
    · split at h
      · simp at h
      · simp only [Prod.mk.injEq] at h
        obtain ⟨-, h2⟩ := h
        subst h2
        split <;> simp

/-- Anatomy of a successful `create_game_session` call: both argument checks
passed and the returned session is the fresh one. -/
theorem createGameSession_ok (num_cards : Int) (cat0 : List Card) (draw : List Nat)
    (s : GameSession) (h : createGameSession num_cards cat0 draw = .ok s) :
    5 ≤ num_cards ∧ num_cards ≤ ((cat0.length / 2 : Nat) : Int) ∧
    s.cards = (pySample cat0 draw).map (·.id) ∧ s.current_index = 0 ∧
    s.score = 0 ∧ s.total_cards = num_cards := by
  simp only [createGameSession] at h
  split at h
  · simp at h
  · split at h
    · simp at h
    · next h5 hmax =>
      simp only [Except.ok.injEq] at h
      subst h
      exact ⟨not_lt.mp h5, not_lt.mp hmax, rfl, rfl, rfl, rfl⟩

/-! ### Claim theorems -/

/-- C1: for an in-progress session whose current card resolves in the catalog,
`submit_answer` grades by comparing the trimmed submitted answer with the
trimmed stored answer (case-sensitive otherwise), returning that verdict with
the stored correct-answer string, incrementing `score` by exactly 1 on a match
and leaving it unchanged otherwise, and incrementing `current_index` by
exactly 1 in both cases. -/
theorem submit_answer_grading (s : GameSession) (answer : String) (all_cards : List Card)
    (cid : Int) (card : Card)
    (hlt : s.current_index < s.total_cards)
    (hidx : pyIdx s.cards s.current_index = some cid)
    (hfind : findCard all_cards cid = some card) :
    (submitAnswer s answer all_cards).1 =
      .ok (pyStrip answer == pyStrip card.correct_answer, card.correct_answer) ∧
    (submitAnswer s answer all_cards).2.current_index = s.current_index + 1 ∧
    (submitAnswer s answer all_cards).2.score =
      (if pyStrip answer = pyStrip card.correct_answer then s.score + 1 else s.score) := by
  simp only [submitAnswer, if_neg (not_le.mpr hlt), hidx, hfind]
  by_cases hc : pyStrip answer = pyStrip card.correct_answer <;>
    simp [hc]

/-- Witness for C1 on `catalog10`: submitting `" Alpha "` against the card
whose stored answer is `"Alpha"` is graded correct and scores one point. -/
theorem submit_answer_grading_witness :
    (submitAnswer ⟨[1], 0, 0, 1⟩ " Alpha " catalog10).1 =
      .ok (pyStrip " Alpha " == pyStrip "Alpha", "Alpha") ∧
    (submitAnswer ⟨[1], 0, 0, 1⟩ " Alpha " catalog10).2.current_index = 0 + 1 ∧
    (submitAnswer ⟨[1], 0, 0, 1⟩ " Alpha " catalog10).2.score =
      (if pyStrip " Alpha " = pyStrip "Alpha" then 0 + 1 else 0) :=
  submit_answer_grading ⟨[1], 0, 0, 1⟩ " Alpha " catalog10 1 ⟨1, "img1.png", "Alpha"⟩
    (by decide) (by decide) (by decide)

/-- C4: `create_game_session` rejects `num_cards < 5` with the "at least 5"
`InvalidArgument`, rejects `num_cards > floor(len(catalog)/2)` with an
`InvalidArgument`, and succeeds for every `num_cards` in between. -/
theorem create_session_bounds (num_cards : Int) (cat0 : List Card) (draw : List Nat) :
    (num_cards < 5 →
      createGameSession num_cards cat0 draw =
        .error (.invalidArgument "Number of cards must be at least 5")) ∧
    (num_cards > ((cat0.length / 2 : Nat) : Int) →
      ∃ msg, createGameSession num_cards cat0 draw = .error (.invalidArgument msg)) ∧
    (5 ≤ num_cards → num_cards ≤ ((cat0.length / 2 : Nat) : Int) →
      ∃ s, createGameSession num_cards cat0 draw = .ok s) := by
  refine ⟨fun h => ?_, fun h => ?_, fun h5 hmax => ?_⟩
  · simp [createGameSession, h]
  · by_cases h5 : num_cards < 5
    · exact ⟨"Number of cards must be at least 5", by simp [createGameSession, h5]⟩
    · refine ⟨"Number of cards must not exceed half of available cards", ?_⟩
      simp only [createGameSession, if_neg h5]
      rw [if_pos (by omega)]
  · refine ⟨⟨(pySample cat0 draw).map (·.id), 0, 0, num_cards⟩, ?_⟩
    simp only [createGameSession, if_neg (not_lt.mpr h5)]
    rw [if_neg (by omega)]

/-- Witness for C4 on `catalog10` (10 cards, so the cap is 5): creation fails
for 4 and for 6 and succeeds for 5. -/
theorem create_session_bounds_witness :
    createGameSession 4 catalog10 [0, 1, 2, 3] =
      .error (.invalidArgument "Number of cards must be at least 5") ∧
    (∃ msg, createGameSession 6 catalog10 [0, 1, 2, 3, 4, 5] =
      .error (.invalidArgument msg)) ∧
    (∃ s, createGameSession 5 catalog10 [0, 1, 2, 3, 4] = .ok s) :=
  ⟨(create_session_bounds 4 catalog10 [0, 1, 2, 3]).1 (by decide),
   (create_session_bounds 6 catalog10 [0, 1, 2, 3, 4, 5]).2.1 (by decide),
   (create_session_bounds 5 catalog10 [0, 1, 2, 3, 4]).2.2 (by decide) (by decide)⟩

/-- C5: for a catalog with pairwise-distinct card ids, any
`num_cards ∈ [5, floor(len(catalog)/2)]` and any valid random draw,
`create_game_session` returns a session with `current_index = 0`, `score = 0`,
`total_cards = num_cards`, exactly `num_cards` selected ids, all pairwise
distinct and all present in the catalog. -/
theorem create_session_shape (num_cards : Int) (cat0 : List Card) (draw : List Nat)
    (hids : (cat0.map (·.id)).Nodup)
    (h5 : 5 ≤ num_cards) (hmax : num_cards ≤ ((cat0.length / 2 : Nat) : Int))
    (hdraw : ValidDraw cat0.length num_cards.toNat draw) :
    ∃ s, createGameSession num_cards cat0 draw = .ok s ∧
      s.current_index = 0 ∧ s.score = 0 ∧ s.total_cards = num_cards ∧
      (s.cards.length : Int) = num_cards ∧ s.cards.Nodup ∧
      ∀ cid ∈ s.cards, cid ∈ cat0.map (·.id) := by
  obtain ⟨s, hok⟩ := (create_session_bounds num_cards cat0 draw).2.2 h5 hmax
  obtain ⟨-, -, hcards, hidx0, hsc0, htot⟩ := createGameSession_ok _ _ _ _ hok
  obtain ⟨hnd, hlen, hin⟩ := hdraw
  refine ⟨s, hok, hidx0, hsc0, htot, ?_, ?_, ?_⟩
  · rw [hcards, List.length_map, pySample_length _ _ hin, hlen]
    omega
  · rw [hcards, pySample_map]
    exact pySample_nodup _ _ hids hnd (by simpa using hin)
  · intro cid hcid
    rw [hcards, pySample_map] at hcid
    exact pySample_subset _ _ _ hcid

/-- Witness for C5: a five-card draw on `catalog10` yields the expected
fresh session. -/
theorem create_session_shape_witness :
    ∃ s, createGameSession 5 catalog10 [9, 0, 3, 7, 1] = .ok s ∧
      s.current_index = 0 ∧ s.score = 0 ∧ s.total_cards = 5 ∧
      (s.cards.length : Int) = 5 ∧ s.cards.Nodup ∧
      ∀ cid ∈ s.cards, cid ∈ catalog10.map (·.id) :=
  create_session_shape 5 catalog10 [9, 0, 3, 7, 1]
    (by decide) (by decide) (by decide) (by decide)

/-- C2 (amended): for an in-progress session whose current card resolves, and
any valid draw over the distractor pool, the returned choices are sorted
ascending (code-point lexicographic), contain the current card's correct
answer, and have length `1 + min 4 pool.length`, where the pool is every
catalog answer string different from the correct answer, counted with
multiplicity.  (The code does not deduplicate the pool, so the length counts
repeated strings and the choices may contain duplicates.) -/
theorem choices_shape (s : GameSession) (all_cards : List Card) (draw : List Nat)
    (cid : Int) (card : Card)
    (hlt : s.current_index < s.total_cards)
    (hidx : pyIdx s.cards s.current_index = some cid)
    (hfind : findCard all_cards cid = some card)
    (hdraw : ValidDraw (incorrectAnswers all_cards card).length
      (min 4 (incorrectAnswers all_cards card).length) draw) :
    ∃ c, getCurrentCardWithChoices s all_cards draw = .ok c ∧
      List.Sorted strLeProp c.choices ∧
      card.correct_answer ∈ c.choices ∧
      c.choices.length = 1 + min 4 (incorrectAnswers all_cards card).length := by
  obtain ⟨hnd, hlen, hin⟩ := hdraw
  refine ⟨⟨s.current_index, s.total_cards, "/images/" ++ card.image_filename,
    List.insertionSort strLeProp
      (card.correct_answer :: pySample (incorrectAnswers all_cards card) draw)⟩,
    ?_, ?_, ?_, ?_⟩
  · simp only [getCurrentCardWithChoices, if_neg (not_le.mpr hlt), hidx, hfind]
  · exact List.sorted_insertionSort strLeProp _
  · exact (List.perm_insertionSort strLeProp _).mem_iff.mpr (List.mem_cons_self _ _)
  · rw [(List.perm_insertionSort strLeProp _).length_eq]
    simp only [List.length_cons, pySample_length _ _ hin, hlen]
    omega

/-- Witness for C2 (amended) on `catalog10` from the first card: nine
distractors are available, four are drawn. -/
theorem choices_shape_witness :
    ∃ c, getCurrentCardWithChoices ⟨[1], 0, 0, 1⟩ catalog10 [1, 4, 2, 8] = .ok c ∧
      List.Sorted strLeProp c.choices ∧
      "Alpha" ∈ c.choices ∧
      c.choices.length =
        1 + min 4 (incorrectAnswers catalog10 ⟨1, "img1.png", "Alpha"⟩).length :=
  choices_shape ⟨[1], 0, 0, 1⟩ catalog10 [1, 4, 2, 8] 1 ⟨1, "img1.png", "Alpha"⟩
    (by decide) (by decide) (by decide) (by decide)

/-- C2 counterexample: in `dupCatalog` the only answer string distinct from
the current card's `"Alpha"` is `"Beta"`, yet a valid draw of the (duplicated)
pool returns the choices `["Alpha", "Beta", "Beta"]`: they contain duplicates
and their length is 3, not `1 + min 4 1 = 2`. -/
theorem choices_distinct_counterexample :
    ValidDraw (incorrectAnswers dupCatalog ⟨1, "a.png", "Alpha"⟩).length
      (min 4 (incorrectAnswers dupCatalog ⟨1, "a.png", "Alpha"⟩).length) [0, 1] ∧
    getCurrentCardWithChoices ⟨[1], 0, 0, 1⟩ dupCatalog [0, 1] =
      .ok ⟨0, 1, "/images/a.png", ["Alpha", "Beta", "Beta"]⟩ ∧
    (∀ ans ∈ dupCatalog.map (·.correct_answer), ans = "Alpha" ∨ ans = "Beta") ∧
    ¬ (["Alpha", "Beta", "Beta"] : List String).Nodup ∧
    (["Alpha", "Beta", "Beta"] : List String).length ≠ 1 + min 4 1 := by
  decide

/-- Every successful run of `submit_answer` calls advances `current_index` by
exactly the number of calls and preserves `total_cards`. -/
theorem runSubmits_ok (steps : List (String × List Card)) (s s1 : GameSession)
    (h : runSubmits s steps = some s1) :
    s1.current_index = s.current_index + steps.length ∧
    s1.total_cards = s.total_cards := by
  induction steps generalizing s with
  | nil =>
    simp only [runSubmits, Option.some.injEq] at h
    subst h
    simp
  | cons p rest ih =>
    obtain ⟨a, cat⟩ := p
    unfold runSubmits at h
    split at h
    · next r s2 heq =>
      obtain ⟨-, -, htot, hidx, -⟩ := submitAnswer_ok _ _ _ _ _ heq
      obtain ⟨hidx', htot'⟩ := ih _ h
      constructor
      · rw [hidx', hidx]
        simp only [List.length_cons]
        push_cast
        ring
      · rw [htot', htot]
    · exact absurd h (by simp)

/-- `get_current_card_with_choices` fails with the game-complete error exactly
when `current_index >= total_cards`. -/
theorem getCurrent_complete_iff (s : GameSession) (cat : List Card) (draw : List Nat) :
    getCurrentCardWithChoices s cat draw = .error .gameComplete ↔
      s.total_cards ≤ s.current_index := by
  unfold getCurrentCardWithChoices
  split
  · next hge => simpa using hge
  · next hlt =>
    constructor
    · intro h
      split at h
      · simp at h
      · split at h <;> simp at h
    · intro h
      exact absurd h hlt

/-- `submit_answer` fails with the game-complete error exactly when
`current_index >= total_cards`. -/
theorem submit_complete_iff (s : GameSession) (answer : String) (cat : List Card) :
    (submitAnswer s answer cat).1 = .error .gameComplete ↔
      s.total_cards ≤ s.current_index := by
  unfold submitAnswer
  split
  · next hge => simpa using hge
  · next hlt =>
    constructor
    · intro h
      split at h
      · simp at h
      · split at h <;> simp at h
    · intro h
      exact absurd h hlt

/-- C3: after exactly `total_cards` successful `submit_answer` calls starting
from a freshly created session, `is_game_complete` is true and every further
`get_current_card_with_choices` or `submit_answer` call fails with the
game-complete error; moreover both operations fail with that error exactly
when `current_index >= total_cards`. -/
theorem complete_after_all_submissions
    (num_cards : Int) (cat0 : List Card) (draw : List Nat) (s0 : GameSession)
    (hcreate : createGameSession num_cards cat0 draw = .ok s0)
    (steps : List (String × List Card)) (s1 : GameSession)
    (hrun : runSubmits s0 steps = some s1)
    (hlen : (steps.length : Int) = s0.total_cards) :
    isGameComplete s1 = true ∧
    (∀ cat d, getCurrentCardWithChoices s1 cat d = .error .gameComplete) ∧
    (∀ answer cat, (submitAnswer s1 answer cat).1 = .error .gameComplete) ∧
    (∀ t : GameSession, ∀ cat d,
      (getCurrentCardWithChoices t cat d = .error .gameComplete ↔
        t.total_cards ≤ t.current_index)) ∧
    (∀ t : GameSession, ∀ answer cat,
      ((submitAnswer t answer cat).1 = .error .gameComplete ↔
        t.total_cards ≤ t.current_index)) := by
  obtain ⟨-, -, -, hidx0, -, -⟩ := createGameSession_ok _ _ _ _ hcreate
  obtain ⟨hidx1, htot1⟩ := runSubmits_ok _ _ _ hrun
  have hge : s1.total_cards ≤ s1.current_index := by
    rw [hidx1, htot1, hidx0]
    omega
  refine ⟨?_, ?_, ?_, getCurrent_complete_iff, submit_complete_iff⟩
  · simpa [isGameComplete] using hge
  · intro cat d
    exact (getCurrent_complete_iff s1 cat d).mpr hge
  · intro answer cat
    exact (submit_complete_iff s1 answer cat).mpr hge

/-- Witness for C3: create a five-card game from `catalog10` and submit five
(wrong) answers; the game is then complete and both operations are rejected. -/
theorem complete_after_all_submissions_witness :
    isGameComplete ⟨[1, 2, 3, 4, 5], 5, 0, 5⟩ = true ∧
    (∀ cat d, getCurrentCardWithChoices ⟨[1, 2, 3, 4, 5], 5, 0, 5⟩ cat d =
      .error .gameComplete) ∧
    (∀ answer cat, (submitAnswer ⟨[1, 2, 3, 4, 5], 5, 0, 5⟩ answer cat).1 =
      .error .gameComplete) ∧
    (∀ t : GameSession, ∀ cat d,
      (getCurrentCardWithChoices t cat d = .error .gameComplete ↔
        t.total_cards ≤ t.current_index)) ∧
    (∀ t : GameSession, ∀ answer cat,
      ((submitAnswer t answer cat).1 = .error .gameComplete ↔
        t.total_cards ≤ t.current_index)) :=
  complete_after_all_submissions 5 catalog10 [0, 1, 2, 3, 4] ⟨[1, 2, 3, 4, 5], 0, 0, 5⟩
    (by decide) (List.replicate 5 ("zzz", catalog10)) ⟨[1, 2, 3, 4, 5], 5, 0, 5⟩
    (by decide) (by decide)

/-- C6: `get_game_results` fails with the game-not-complete error exactly when
`current_index < total_cards`; on a complete session with `total_cards > 0` it
returns `(score, total_cards, (score / total_cards) * 100)` with exact
arithmetic on the source's formula. -/
theorem results_spec (s : GameSession) :
    (getGameResults s = .error .gameNotComplete ↔ s.current_index < s.total_cards) ∧
    (s.total_cards ≤ s.current_index → 0 < s.total_cards →
      getGameResults s =
        .ok (s.score, s.total_cards, ((s.score : Rat) / (s.total_cards : Rat)) * 100)) := by
  constructor
  · unfold getGameResults
    split
    · next h =>
      simp only [isGameComplete, ge_iff_le, decide_eq_true_eq] at h
      simpa using not_le.mp h
    · next h =>
      simp only [isGameComplete, ge_iff_le, decide_eq_true_eq, not_not] at h
      simpa using not_lt.mpr h
  · intro hge hpos
    unfold getGameResults
    rw [if_neg (by simpa [isGameComplete] using hge), if_pos hpos]

/-- Witness for C6: a complete 5-card session with score 3 reports exactly
`(3, 5, 60)` (the claim's `60.0` example), and an incomplete session is
rejected. -/
theorem results_spec_witness :
    getGameResults ⟨[], 5, 3, 5⟩ = .ok (3, 5, ((3 : Rat) / (5 : Rat)) * 100) ∧
    ((3 : Rat) / (5 : Rat)) * 100 = 60 ∧
    (getGameResults ⟨[], 2, 1, 5⟩ = .error .gameNotComplete ↔ (2 : Int) < 5) :=
  ⟨(results_spec ⟨[], 5, 3, 5⟩).2 (by decide) (by decide),
   by norm_num,
   (results_spec ⟨[], 2, 1, 5⟩).1⟩

/-- C7: the invariant `0 <= score <= current_index <= total_cards` holds in
every session reachable from `create_game_session` through any sequence of
successful `submit_answer` calls (the sole mutator). -/
theorem session_invariant (s : GameSession) (h : Reachable s) :
    0 ≤ s.score ∧ s.score ≤ s.current_index ∧ s.current_index ≤ s.total_cards := by
  induction h with
  | create num_cards all_cards draw s hok =>
    obtain ⟨h5, -, -, hidx, hsc, htot⟩ := createGameSession_ok _ _ _ _ hok
    rw [hidx, hsc, htot]
    omega
  | step s answer all_cards r s1 hreach heq ih =>
    obtain ⟨hlt, -, htot, hidx, hsc⟩ := submitAnswer_ok _ _ _ _ _ heq
    rcases hsc with h | h <;> omega

/-- Witness for C7: the session created by a concrete five-card draw on
`catalog10` satisfies the invariant. -/
theorem session_invariant_witness :
    0 ≤ (GameSession.mk [1, 2, 3, 4, 5] 0 0 5).score ∧
    (GameSession.mk [1, 2, 3, 4, 5] 0 0 5).score ≤
      (GameSession.mk [1, 2, 3, 4, 5] 0 0 5).current_index ∧
    (GameSession.mk [1, 2, 3, 4, 5] 0 0 5).current_index ≤
      (GameSession.mk [1, 2, 3, 4, 5] 0 0 5).total_cards :=
  session_invariant ⟨[1, 2, 3, 4, 5], 0, 0, 5⟩
    (Reachable.create 5 catalog10 [0, 1, 2, 3, 4] ⟨[1, 2, 3, 4, 5], 0, 0, 5⟩ (by decide))

/-- C8: `submit_answer` never changes `cards` or `total_cards`, and when it
fails it leaves the session entirely unchanged (the checks precede every
mutation).  The query operations are embedded as pure functions of the
session, so they cannot change it. -/
theorem submit_answer_frame (s : GameSession) (answer : String) (cat : List Card) :
    (submitAnswer s answer cat).2.cards = s.cards ∧
    (submitAnswer s answer cat).2.total_cards = s.total_cards ∧
    ∀ e, (submitAnswer s answer cat).1 = .error e → (submitAnswer s answer cat).2 = s := by
  unfold submitAnswer
  split
  · simp
  · split
    · simp
    · split
      · simp
      · exact ⟨by simp [apply_ite], by simp [apply_ite], fun e he => by simp at he⟩

/-- Witness for C8: a failing call (game already complete) returns the session
unchanged. -/
theorem submit_answer_frame_witness :
    (submitAnswer ⟨[1], 1, 0, 1⟩ "Alpha" catalog10).2.cards = [1] ∧
    (submitAnswer ⟨[1], 1, 0, 1⟩ "Alpha" catalog10).2.total_cards = 1 ∧
    ∀ e, (submitAnswer ⟨[1], 1, 0, 1⟩ "Alpha" catalog10).1 = .error e →
      (submitAnswer ⟨[1], 1, 0, 1⟩ "Alpha" catalog10).2 = ⟨[1], 1, 0, 1⟩ :=
  submit_answer_frame ⟨[1], 1, 0, 1⟩ "Alpha" catalog10

/-- C9: distractor exclusion compares untrimmed strings while grading trims:
in `wsCatalog` the other card's answer `" Paris"` differs from the current
card's `"Paris"` only by leading whitespace, so a valid draw puts `" Paris"`
among the choices, and submitting that very choice is graded correct. -/
theorem trim_mismatch_exploit :
    ValidDraw (incorrectAnswers wsCatalog ⟨1, "p.png", "Paris"⟩).length
      (min 4 (incorrectAnswers wsCatalog ⟨1, "p.png", "Paris"⟩).length) [0] ∧
    getCurrentCardWithChoices ⟨[1], 0, 0, 1⟩ wsCatalog [0] =
      .ok ⟨0, 1, "/images/p.png", [" Paris", "Paris"]⟩ ∧
    " Paris" ∈ ([" Paris", "Paris"] : List String) ∧
    (submitAnswer ⟨[1], 0, 0, 1⟩ " Paris" wsCatalog).1 = .ok (true, "Paris") := by
  decide

/-- C10 counterexample: the pydantic model also lets `current_index` be
negative, and for `current_index = -1, total_cards = 0` the code reports the
game as not complete and `get_game_results` fails, contrary to the claim's
"every session value with `total_cards = 0`". -/
theorem zero_total_counterexample :
    (GameSession.mk [] (-1) 0 0).total_cards = 0 ∧
    isGameComplete ⟨[], -1, 0, 0⟩ = false ∧
    getGameResults ⟨[], -1, 0, 0⟩ = .error .gameNotComplete := by
  decide

/-- C10 (amended): for every session value with `total_cards = 0` and
`current_index >= 0`, `is_game_complete` is true and `get_game_results`
returns `(score, 0, 0.0)` without error: the division by `total_cards` is
guarded by the `total_cards > 0` test and never executed. -/
theorem zero_total_guarded (s : GameSession) (h0 : s.total_cards = 0)
    (hidx : 0 ≤ s.current_index) :
    isGameComplete s = true ∧ getGameResults s = .ok (s.score, 0, 0) := by
  have hge : s.total_cards ≤ s.current_index := by omega
  constructor
  · simpa [isGameComplete] using hge
  · unfold getGameResults
    rw [if_neg (by simpa [isGameComplete] using hge)]
    rw [if_neg (by omega), h0]

/-- Witness for C10 (amended): a deserialized session with `total_cards = 0`
and positive score reports `(score, 0, 0)` without error. -/
theorem zero_total_guarded_witness :
    isGameComplete ⟨[], 0, 7, 0⟩ = true ∧
    getGameResults ⟨[], 0, 7, 0⟩ = .ok (7, 0, 0) :=
  zero_total_guarded ⟨[], 0, 7, 0⟩ (by decide) (by decide)

end AIQuiz
